import Mathlib

/-!
Verification of the Hyperion desktop supervisor/proxy core
(src/desktop-app/src-tauri/src/main.rs).

The Rust source is shallowly embedded: filesystem paths become lists of
components, the operating-system environment (current directory, resource
directory, file existence, process spawning, HTTP transport) is passed
explicitly as data, and fallible Rust functions returning Result become
Lean functions returning Except. Side effects (spawn attempts, kill
signals, log lines) are made explicit in the return values so that
theorems can speak about them.
-/

namespace Hyperion

/-- A filesystem path, as its list of components. -/
abbrev Path := List String

/-- Models PathBuf.pop: drop the last component. -/
def pathPop (p : Path) : Path := p.dropLast

/-- Models PathBuf.push: append one component. -/
def pathPush (p : Path) (c : String) : Path := p ++ [c]

/-- Models the Debug formatting of a PathBuf, as used in the error and log
messages of the source. -/
def pathRepr (p : Path) : String := "\"" ++ String.intercalate "/" p ++ "\""

/-- The parts of the runtime environment that path resolution reads:
the build mode flag, the current working directory (an Except, since
reading it can fail), the Tauri resource directory lookup, and the
target operating system. -/
structure PathEnv where
  debugAssertions : Bool
  currentDir : Except String Path
  resourceDir : Except String Path
  targetOsWindows : Bool

/-- Embeds get_hyper_binary_path. In the debug-assertions (Development)
branch the code pops the last component of the current directory and
pushes "bin" then "hyper", with no platform suffix; in the production
branch it joins the resource directory with "hyper.exe" on Windows and
"hyper" elsewhere. -/
def get_hyper_binary_path (env : PathEnv) : Except String Path :=
  if env.debugAssertions then
    match env.currentDir with
    | .error e => .error e
    | .ok p => .ok (pathPush (pathPush (pathPop p) "bin") "hyper")
  else
    match env.resourceDir with
    | .error e => .error e
    | .ok r => .ok (pathPush r (if env.targetOsWindows then "hyper.exe" else "hyper"))

/-- Embeds get_env_path. In the debug-assertions (Development) branch the
code pops the last component of the current directory and pushes "bin"
then ".env.hyper"; in the production branch it joins the resource
directory with ".env.hyper". -/
def get_env_path (env : PathEnv) : Except String Path :=
  if env.debugAssertions then
    match env.currentDir with
    | .error e => .error e
    | .ok p => .ok (pathPush (pathPush (pathPop p) "bin") ".env.hyper")
  else
    match env.resourceDir with
    | .error e => .error e
    | .ok r => .ok (pathPush r ".env.hyper")

/-- The Development-mode binary path as the spec sentence for claim C1
words it: platform-suffixed, ".exe" on Windows. Stated from the words of
the spec, for comparison with get_hyper_binary_path. -/
def claimed_dev_binary_path (cwd : Path) (isWindows : Bool) : Path :=
  pathPush (pathPush (pathPop cwd) "bin")
    (if isWindows then "hyper.exe" else "hyper")

/-- The fixed argument vector handed to the backend binary. -/
def modeArgs : List String := ["--mode=http"]

/-- Environment consumed by start_hyperion_server: path resolution inputs,
a file-existence oracle, and an OS spawn primitive returning a pid or an
error message. -/
structure StartEnv where
  paths : PathEnv
  fsExists : Path → Bool
  spawn : Path → List String → Except String Nat

/-- Observable outcome of start_hyperion_server: the Result value the
function returns, every spawn attempt handed to the OS (program path and
argument list), and the log lines printed. -/
structure StartOutcome where
  result : Except String Nat
  spawns : List (Path × List String)
  logs : List String

/-- Embeds start_hyperion_server: resolve the binary path, fail with the
"Hyperion binary not found at ..." message when the path does not exist
on disk (without spawning), otherwise log the optional config file check
and spawn the binary with the single argument "--mode=http". -/
def start_hyperion_server (env : StartEnv) : StartOutcome :=
  match get_hyper_binary_path env.paths with
  | .error e => ⟨.error e, [], []⟩
  | .ok binaryPath =>
    if env.fsExists binaryPath then
      let startLog := "Starting Hyperion server from: " ++ pathRepr binaryPath
      let configLogs :=
        match get_env_path env.paths with
        | .ok envFile =>
          if env.fsExists envFile then
            ["Using config file: " ++ pathRepr envFile]
          else
            ["Warning: .env.hyper not found at " ++ pathRepr envFile]
        | .error _ => []
      match env.spawn binaryPath modeArgs with
      | .error e =>
        ⟨.error ("Failed to start Hyperion server: " ++ e),
          [(binaryPath, modeArgs)], [startLog] ++ configLogs⟩
      | .ok pid =>
        ⟨.ok pid, [(binaryPath, modeArgs)],
          [startLog] ++ configLogs ++
            ["Hyperion server started with PID: " ++ toString pid]⟩
    else
      ⟨.error ("Hyperion binary not found at " ++ pathRepr binaryPath), [], []⟩

/-- The shared Mutex cell holding the supervised child process, a child
being identified by its pid. -/
abbrev ProcessCell := Option Nat

/-- How many process references a cell holds. -/
def cellCount (c : ProcessCell) : Nat :=
  match c with
  | none => 0
  | some _ => 1

/-- Embeds stop_hyperion_server: take the child out of the cell and, when
one was present, kill and wait on it. Returns the cell afterwards and the
list of pids that received a termination signal. -/
def stop_hyperion_server (cell : ProcessCell) : ProcessCell × List Nat :=
  match cell with
  | some pid => (none, [pid])
  | none => (none, [])

/-- Embeds the production branch of main's setup hook: run
start_hyperion_server; on success store the child in the managed cell,
on error leave the cell unchanged and propagate the error. -/
def setup_store (cell : ProcessCell) (env : StartEnv) :
    ProcessCell × Except String Unit :=
  match (start_hyperion_server env).result with
  | .ok pid => (some pid, .ok ())
  | .error e => (cell, .error e)

/-- JSON values, modelling serde_json Value; objects are association
lists of key and value. Numbers are integers, which covers every number
the embedded code produces (the only numeric argument is an i32 limit). -/
inductive Json where
  | null
  | bool (b : Bool)
  | num (n : Int)
  | str (s : String)
  | arr (xs : List Json)
  | obj (kvs : List (String × Json))

/-- Key lookup in an association list of JSON object members. -/
def lookupKey (kvs : List (String × Json)) (key : String) : Option Json :=
  match kvs with
  | [] => none
  | (k, v) :: rest => if k = key then some v else lookupKey rest key

/-- Models serde_json index assignment on an object, as in the Rust
source writing to a key of an args value: replace the value when the key
is already present, otherwise add the key. -/
def jsonInsert (kvs : List (String × Json)) (key : String) (v : Json) :
    List (String × Json) :=
  if kvs.any (fun kv => kv.1 = key) then
    kvs.map (fun kv => if kv.1 = key then (key, v) else kv)
  else
    kvs ++ [(key, v)]

/-- An outbound HTTP POST request: target URL and JSON body. -/
structure HttpPost where
  url : String
  body : Json

/-- Outcome of one HTTP exchange: either a response with a status code
and a body-deserialization result (the body parsed as JSON, or a parse
error message), or a transport-level failure with a reason. -/
inductive HttpOutcome where
  | response (status : Nat) (body : Except String Json)
  | failure (reason : String)

/-- Models reqwest StatusCode.is_success: the 2xx range. -/
def isSuccessStatus (s : Nat) : Bool := 200 ≤ s && s < 300

/-- The fixed backend endpoint that call_mcp_tool posts to. -/
def mcpEndpoint : String := "http://localhost:7095/api/mcp/tools/call"

/-- The fixed backend health endpoint probed by check_server_health. -/
def healthEndpoint : String := "http://localhost:7095/health"

/-- The fixed URL returned by get_server_url. -/
def get_server_url : String := "http://localhost:7095/ui"

/-- Embeds check_server_health over an abstract HTTP GET transport: probe
the fixed health endpoint; a success-range status yields "healthy", any
other status yields the "Server returned status: ..." error, and a
transport failure yields the "Health check failed: ..." error. The
status is rendered by its numeral. -/
def check_server_health (httpGet : String → HttpOutcome) :
    Except String String :=
  match httpGet healthEndpoint with
  | .response status _ =>
    if isSuccessStatus status then .ok "healthy"
    else .error ("Server returned status: " ++ toString status)
  | .failure e => .error ("Health check failed: " ++ e)

/-- Embeds call_mcp_tool over an abstract HTTP POST transport: build the
payload object with members "name" and "arguments", post it to the fixed
endpoint, and map the outcome exactly as the source does. Returns the
list of POST requests issued together with the Result value. -/
def call_mcp_tool (transport : HttpPost → HttpOutcome) (name : String)
    (arguments : Json) : List HttpPost × Except String Json :=
  let payload := Json.obj [("name", Json.str name), ("arguments", arguments)]
  let req : HttpPost := ⟨mcpEndpoint, payload⟩
  match transport req with
  | .response status body =>
    if isSuccessStatus status then ([req], body)
    else ([req], .error ("MCP tool call failed: " ++ toString status))
  | .failure e => ([req], .error ("Failed to call MCP tool: " ++ e))

/-- Embeds create_human_task: delegate to call_mcp_tool with the fixed
tool name and a one-member arguments object. -/
def create_human_task (transport : HttpPost → HttpOutcome)
    (prompt : String) : List HttpPost × Except String Json :=
  call_mcp_tool transport "coordinator_create_human_task"
    (Json.obj [("prompt", Json.str prompt)])

/-- The argument object built by create_agent_task: three mandatory
members, then each optional parameter written into the object only when
present. -/
def create_agent_task_args (humanTaskId agentName role : String)
    (contextSummary : Option String) (filesModified : Option (List String))
    (todos : Option (List Json)) : List (String × Json) :=
  let args := [("humanTaskId", Json.str humanTaskId),
    ("agentName", Json.str agentName), ("role", Json.str role)]
  let args := match contextSummary with
    | some summary => jsonInsert args "contextSummary" (Json.str summary)
    | none => args
  let args := match filesModified with
    | some files => jsonInsert args "filesModified" (Json.arr (files.map Json.str))
    | none => args
  match todos with
  | some todosList => jsonInsert args "todos" (Json.arr todosList)
  | none => args

/-- Embeds create_agent_task: build the argument object and delegate to
call_mcp_tool with the fixed tool name. -/
def create_agent_task (transport : HttpPost → HttpOutcome)
    (humanTaskId agentName role : String) (contextSummary : Option String)
    (filesModified : Option (List String)) (todos : Option (List Json)) :
    List HttpPost × Except String Json :=
  call_mcp_tool transport "coordinator_create_agent_task"
    (Json.obj (create_agent_task_args humanTaskId agentName role
      contextSummary filesModified todos))

/-- Embeds list_human_tasks: delegate to call_mcp_tool with the fixed
tool name and an empty arguments object. -/
def list_human_tasks (transport : HttpPost → HttpOutcome) :
    List HttpPost × Except String Json :=
  call_mcp_tool transport "coordinator_list_human_tasks" (Json.obj [])

/-- The argument object built by list_agent_tasks: starts empty, each
optional filter written into the object only when present. -/
def list_agent_tasks_args (agentName humanTaskId : Option String) :
    List (String × Json) :=
  let args : List (String × Json) := []
  let args := match agentName with
    | some name => jsonInsert args "agentName" (Json.str name)
    | none => args
  match humanTaskId with
  | some id => jsonInsert args "humanTaskId" (Json.str id)
  | none => args

/-- Embeds list_agent_tasks: build the argument object and delegate to
call_mcp_tool with the fixed tool name. -/
def list_agent_tasks (transport : HttpPost → HttpOutcome)
    (agentName humanTaskId : Option String) :
    List HttpPost × Except String Json :=
  call_mcp_tool transport "coordinator_list_agent_tasks"
    (Json.obj (list_agent_tasks_args agentName humanTaskId))

/-- The argument object built by update_task_status: two mandatory
members, the optional note written into the object only when present. -/
def update_task_status_args (taskId status : String)
    (notes : Option String) : List (String × Json) :=
  let args := [("taskId", Json.str taskId), ("status", Json.str status)]
  match notes with
  | some notesText => jsonInsert args "notes" (Json.str notesText)
  | none => args

/-- Embeds update_task_status: build the argument object and delegate to
call_mcp_tool with the fixed tool name. -/
def update_task_status (transport : HttpPost → HttpOutcome)
    (taskId status : String) (notes : Option String) :
    List HttpPost × Except String Json :=
  call_mcp_tool transport "coordinator_update_task_status"
    (Json.obj (update_task_status_args taskId status notes))

/-- The argument object built by upsert_knowledge: two mandatory members,
the optional metadata written into the object only when present. -/
def upsert_knowledge_args (collection text : String)
    (metadata : Option Json) : List (String × Json) :=
  let args := [("collection", Json.str collection), ("text", Json.str text)]
  match metadata with
  | some meta => jsonInsert args "metadata" meta
  | none => args

/-- Embeds upsert_knowledge: build the argument object and delegate to
call_mcp_tool with the fixed tool name. -/
def upsert_knowledge (transport : HttpPost → HttpOutcome)
    (collection text : String) (metadata : Option Json) :
    List HttpPost × Except String Json :=
  call_mcp_tool transport "coordinator_upsert_knowledge"
    (Json.obj (upsert_knowledge_args collection text metadata))

/-- The argument object built by query_knowledge: two mandatory members,
the optional limit written into the object only when present. -/
def query_knowledge_args (collection query : String)
    (limit : Option Int) : List (String × Json) :=
  let args := [("collection", Json.str collection), ("query", Json.str query)]
  match limit with
  | some lim => jsonInsert args "limit" (Json.num lim)
  | none => args

/-- Embeds query_knowledge: build the argument object and delegate to
call_mcp_tool with the fixed tool name. -/
def query_knowledge (transport : HttpPost → HttpOutcome)
    (collection query : String) (limit : Option Int) :
    List HttpPost × Except String Json :=
  call_mcp_tool transport "coordinator_query_knowledge"
    (Json.obj (query_knowledge_args collection query limit))

/-- The tool name of the POST request a wrapper issued, read back off the
wire: the "name" member of the request body. -/
def requestToolName (req : HttpPost) : Option Json :=
  match req.body with
  | .obj kvs => lookupKey kvs "name"
  | _ => none

/-- A concrete Development-mode path environment, for instantiating
theorems at a closed input. -/
def devPathEnv : PathEnv := ⟨true, .ok ["repo", "desktop-app"], .ok [], false⟩

/-- A concrete start environment in which every file exists and spawning
yields pid 42. -/
def happyStartEnv : StartEnv := ⟨devPathEnv, fun _ => true, fun _ _ => .ok 42⟩

/-- A concrete start environment in which no file exists on disk. -/
def missingBinaryEnv : StartEnv := ⟨devPathEnv, fun _ => false, fun _ _ => .ok 42⟩

/-- A concrete start environment in which exactly the resolved binary
exists on disk, so the optional config file is missing. -/
def binaryOnlyEnv : StartEnv :=
  ⟨devPathEnv, fun p => p == ["repo", "bin", "hyper"], fun _ _ => .ok 42⟩

/-- A concrete POST transport answering every request with status 200 and
the JSON string "ok" as body. -/
def okPostTransport : HttpPost → HttpOutcome :=
  fun _ => .response 200 (.ok (Json.str "ok"))

/-- A concrete GET transport answering every request with status 500. -/
def get500 : String → HttpOutcome := fun _ => .response 500 (.ok Json.null)

/-! Helper lemmas shared by the claim theorems. -/

/-- Two strings whose fixed leading characters differ are never equal,
whatever the appended suffixes. -/
theorem strHeadNe (c₁ c₂ : Char) (t₁ t₂ : List Char) (s r : String)
    (h : c₁ ≠ c₂) :
    (String.mk (c₁ :: t₁) ++ s) ≠ (String.mk (c₂ :: t₂) ++ r) := by
  obtain ⟨sd⟩ := s
  obtain ⟨rd⟩ := r
  intro he
  have hd : (c₁ :: t₁) ++ sd = (c₂ :: t₂) ++ rd := congrArg String.data he
  simp [List.cons_append] at hd
  exact h hd.1

/-- Whatever the transport answers, call_mcp_tool issues exactly one POST,
to the fixed endpoint, whose body is the object with members "name" and
"arguments". -/
theorem call_mcp_tool_requests (transport : HttpPost → HttpOutcome)
    (name : String) (arguments : Json) :
    (call_mcp_tool transport name arguments).1 =
      [⟨mcpEndpoint, Json.obj [("name", Json.str name), ("arguments", arguments)]⟩] := by
  cases h : transport ⟨mcpEndpoint, Json.obj [("name", Json.str name), ("arguments", arguments)]⟩ with
  | response status body =>
    by_cases hs : isSuccessStatus status = true <;> simp [call_mcp_tool, h, hs]
  | failure e => simp [call_mcp_tool, h]

/-! Theorems for the claims. -/

/-- Claim C1, counterexample: the claim states that in Development mode
the binary name carries the platform suffix ".exe" on Windows. It does
not: the debug-assertions branch of get_hyper_binary_path pushes the
unsuffixed name "hyper" without consulting the target operating system,
so on Windows the resolved path differs from the claimed one. -/
theorem c1_counterexample :
    get_hyper_binary_path ⟨true, .ok ["home", "dev", "desktop-app"], .ok [], true⟩ ≠
      .ok (claimed_dev_binary_path ["home", "dev", "desktop-app"] true) := by
  intro h
  have h2 : pathPush (pathPush (pathPop ["home", "dev", "desktop-app"]) "bin") "hyper" =
      claimed_dev_binary_path ["home", "dev", "desktop-app"] true := by
    injection h
  simp [claimed_dev_binary_path, pathPush, pathPop] at h2

/-- Claim C1 (amended): for every invocation of path resolution in
Development mode, the returned binary path is the parent of the current
working directory extended by "bin" and the unsuffixed name "hyper" on
every platform, the returned config path is the same directory extended
by ".env.hyper", and the result is an error exactly when the current
working directory cannot be read, propagating that error. -/
theorem c1_dev_paths_amended (env : PathEnv) (hdev : env.debugAssertions = true) :
    (∀ p, env.currentDir = .ok p →
      get_hyper_binary_path env = .ok (pathPush (pathPush (pathPop p) "bin") "hyper") ∧
      get_env_path env = .ok (pathPush (pathPush (pathPop p) "bin") ".env.hyper")) ∧
    (∀ e, env.currentDir = .error e →
      get_hyper_binary_path env = .error e ∧ get_env_path env = .error e) := by
  constructor <;> intro x hx <;>
    exact ⟨by simp [get_hyper_binary_path, hdev, hx],
      by simp [get_env_path, hdev, hx]⟩

/-- Witness for claim C1 (amended), at the concrete Development
environment devPathEnv. -/
theorem c1_dev_paths_amended_witness :
    get_hyper_binary_path devPathEnv =
      .ok (pathPush (pathPush (pathPop ["repo", "desktop-app"]) "bin") "hyper") ∧
    get_env_path devPathEnv =
      .ok (pathPush (pathPush (pathPop ["repo", "desktop-app"]) "bin") ".env.hyper") :=
  (c1_dev_paths_amended devPathEnv rfl).1 ["repo", "desktop-app"] rfl

/-- Claim C2: after a successful start the shared cell holds exactly one
process reference (the spawned pid); after stop completes the cell is
empty; and the cell can never hold more than one process reference, so
every operation preserves the at-most-one invariant. -/
theorem c2_cell_invariant (cell : ProcessCell) (env : StartEnv) (pid : Nat)
    (h : (start_hyperion_server env).result = .ok pid) :
    (setup_store cell env).1 = some pid ∧
    cellCount (setup_store cell env).1 = 1 ∧
    (stop_hyperion_server (setup_store cell env).1).1 = none ∧
    (∀ c : ProcessCell, cellCount c ≤ 1) := by
  have hs : (setup_store cell env).1 = some pid := by
    simp [setup_store, h]
  refine ⟨hs, by rw [hs]; rfl, by rw [hs]; rfl, ?_⟩
  intro c
  cases c <;> simp [cellCount]

/-- Witness for claim C2, at the concrete start environment
happyStartEnv, whose spawn primitive yields pid 42. -/
theorem c2_cell_invariant_witness : (setup_store none happyStartEnv).1 = some 42 :=
  (c2_cell_invariant none happyStartEnv 42 rfl).1

/-- Claim C3: stop on an empty cell performs no kill action, returns
without error, and leaves the cell empty; and after any stop, a second
stop again performs no action and leaves the cell empty. -/
theorem c3_stop_idempotent :
    stop_hyperion_server none = (none, []) ∧
    ∀ c : ProcessCell, stop_hyperion_server (stop_hyperion_server c).1 = (none, []) := by
  refine ⟨rfl, ?_⟩
  intro c
  cases c <;> rfl

/-- Claim C4: when the resolved binary path does not exist on disk,
start fails with the distinguishable binary-not-found error carrying the
attempted path, hands nothing to the OS spawn primitive, leaves the cell
unchanged, and the error differs from every spawn-failure error. -/
theorem c4_binary_not_found (cell : ProcessCell) (env : StartEnv) (p : Path)
    (hres : get_hyper_binary_path env.paths = .ok p)
    (hex : env.fsExists p = false) :
    start_hyperion_server env =
      ⟨.error ("Hyperion binary not found at " ++ pathRepr p), [], []⟩ ∧
    setup_store cell env =
      (cell, .error ("Hyperion binary not found at " ++ pathRepr p)) ∧
    (∀ e, ("Hyperion binary not found at " ++ pathRepr p : String) ≠
      "Failed to start Hyperion server: " ++ e) := by
  have h1 : start_hyperion_server env =
      ⟨.error ("Hyperion binary not found at " ++ pathRepr p), [], []⟩ := by
    simp [start_hyperion_server, hres, hex]
  refine ⟨h1, by simp [setup_store, h1], ?_⟩
  intro e
  exact strHeadNe 'H' 'F' _ _ (pathRepr p) e (by decide)

/-- Witness for claim C4, at the concrete start environment
missingBinaryEnv, in which no file exists on disk. -/
theorem c4_binary_not_found_witness :
    start_hyperion_server missingBinaryEnv =
      ⟨.error ("Hyperion binary not found at " ++ pathRepr ["repo", "bin", "hyper"]), [], []⟩ :=
  (c4_binary_not_found none missingBinaryEnv ["repo", "bin", "hyper"] rfl rfl).1

/-- Claim C5: for every tool name and argument mapping, call_mcp_tool
issues exactly one POST, to the fixed backend endpoint, whose body is
the object with the member "name" mapped to the name and the member
"arguments" mapped to the arguments; with empty arguments the body is
that object with an empty "arguments" object, exactly; and on a
success-range status whose body deserializes, the body is returned
as-is. -/
theorem c5_call_tool_request (transport : HttpPost → HttpOutcome)
    (name : String) (arguments : Json) :
    (call_mcp_tool transport name arguments).1 =
      [⟨mcpEndpoint, Json.obj [("name", Json.str name), ("arguments", arguments)]⟩] ∧
    (call_mcp_tool transport name (Json.obj [])).1 =
      [⟨mcpEndpoint, Json.obj [("name", Json.str name), ("arguments", Json.obj [])]⟩] ∧
    (∀ status body j,
      transport ⟨mcpEndpoint, Json.obj [("name", Json.str name), ("arguments", arguments)]⟩ =
        .response status body →
      isSuccessStatus status = true → body = .ok j →
      (call_mcp_tool transport name arguments).2 = .ok j) := by
  refine ⟨call_mcp_tool_requests transport name arguments,
    call_mcp_tool_requests transport name (Json.obj []), ?_⟩
  intro status body j htr hs hb
  simp [call_mcp_tool, htr, hs, hb]

/-- Witness for claim C5, at the concrete transport okPostTransport,
which answers status 200 with the JSON string "ok". -/
theorem c5_call_tool_request_witness :
    (call_mcp_tool okPostTransport "get_status" (Json.obj [])).2 = .ok (Json.str "ok") :=
  (c5_call_tool_request okPostTransport "get_status" (Json.obj [])).2.2 200
    (.ok (Json.str "ok")) (Json.str "ok") rfl rfl rfl

/-- Claim C6: every typed wrapper omits every absent optional parameter
from its argument object: the key list of each argument object is the
mandatory keys followed by exactly the keys of the present optional
parameters; in particular create_agent_task with all optionals omitted
yields exactly the keys humanTaskId, agentName, role, and
list_agent_tasks with no agent name and a present task id yields the
single member humanTaskId. -/
theorem c6_optional_keys (h a r : String) (cs : Option String)
    (fm : Option (List String)) (td : Option (List Json))
    (an hid : Option String) (t s : String) (nt : Option String)
    (col txt : String) (md : Option Json) (qc qq : String)
    (lim : Option Int) (i : String) :
    (create_agent_task_args h a r cs fm td).map Prod.fst =
      ["humanTaskId", "agentName", "role"] ++
        (cs.elim [] fun _ => ["contextSummary"]) ++
        (fm.elim [] fun _ => ["filesModified"]) ++
        (td.elim [] fun _ => ["todos"]) ∧
    (create_agent_task_args h a r none none none).map Prod.fst =
      ["humanTaskId", "agentName", "role"] ∧
    (list_agent_tasks_args an hid).map Prod.fst =
      (an.elim [] fun _ => ["agentName"]) ++
        (hid.elim [] fun _ => ["humanTaskId"]) ∧
    list_agent_tasks_args none (some i) = [("humanTaskId", Json.str i)] ∧
    (update_task_status_args t s nt).map Prod.fst =
      ["taskId", "status"] ++ (nt.elim [] fun _ => ["notes"]) ∧
    (upsert_knowledge_args col txt md).map Prod.fst =
      ["collection", "text"] ++ (md.elim [] fun _ => ["metadata"]) ∧
    (query_knowledge_args qc qq lim).map Prod.fst =
      ["collection", "query"] ++ (lim.elim [] fun _ => ["limit"]) := by
  refine ⟨?_, rfl, ?_, rfl, ?_, ?_, ?_⟩
  · cases cs <;> cases fm <;> cases td <;> rfl
  · cases an <;> cases hid <;> rfl
  · cases nt <;> rfl
  · cases md <;> rfl
  · cases lim <;> rfl

/-- Claim C7: check_server_health yields the value "healthy" exactly for
a success-range status, yields the distinct status-carrying error for a
response outside the success range, yields the distinct transport error
for a transport failure, and the three outcomes never coincide. -/
theorem c7_health_trichotomy (httpGet : String → HttpOutcome) :
    (∀ status body, httpGet healthEndpoint = .response status body →
      (isSuccessStatus status = true → check_server_health httpGet = .ok "healthy") ∧
      (isSuccessStatus status = false →
        check_server_health httpGet =
          .error ("Server returned status: " ++ toString status))) ∧
    (∀ reason, httpGet healthEndpoint = .failure reason →
      check_server_health httpGet = .error ("Health check failed: " ++ reason)) ∧
    (∀ (status : Nat) (reason : String),
      ("Server returned status: " ++ toString status : String) ≠
        "Health check failed: " ++ reason) ∧
    (∀ msg, (Except.ok "healthy" : Except String String) ≠ .error msg) := by
  refine ⟨?_, ?_, ?_, ?_⟩
  · intro status body hresp
    constructor <;> intro hs <;> simp [check_server_health, hresp, hs]
  · intro reason hfail
    simp [check_server_health, hfail]
  · intro status reason
    exact strHeadNe 'S' 'H' _ _ (toString status) reason (by decide)
  · intro msg hcontra
    exact Except.noConfusion hcontra

/-- Witness for claim C7, at the concrete transport get500, which
answers every probe with status 500. -/
theorem c7_health_trichotomy_witness :
    check_server_health get500 = .error ("Server returned status: " ++ toString (500 : Nat)) :=
  ((c7_health_trichotomy get500).1 500 (.ok Json.null) rfl).2 rfl

/-- Claim C8: every spawn attempt made by start carries exactly the one
argument vector consisting of the flag selecting HTTP mode, so the
config path is never passed as an argument; the Result value and the
spawn attempts of start do not depend on whether the config file exists;
and a missing config file is non-fatal: start still succeeds and only
logs a warning. -/
theorem c8_invocation_args :
    (∀ env : StartEnv, ∀ x ∈ (start_hyperion_server env).spawns,
      x.2 = ["--mode=http"]) ∧
    (∀ e₁ e₂ : StartEnv, e₁.paths = e₂.paths → e₁.spawn = e₂.spawn →
      (∀ p, get_hyper_binary_path e₁.paths = .ok p →
        e₁.fsExists p = e₂.fsExists p) →
      (start_hyperion_server e₁).result = (start_hyperion_server e₂).result ∧
      (start_hyperion_server e₁).spawns = (start_hyperion_server e₂).spawns) ∧
    (∀ env : StartEnv, ∀ p q pid,
      get_hyper_binary_path env.paths = .ok p → env.fsExists p = true →
      get_env_path env.paths = .ok q → env.fsExists q = false →
      env.spawn p modeArgs = .ok pid →
      (start_hyperion_server env).result = .ok pid ∧
      ("Warning: .env.hyper not found at " ++ pathRepr q) ∈
        (start_hyperion_server env).logs) := by
  refine ⟨?_, ?_, ?_⟩
  · intro env x hx
    cases hres : get_hyper_binary_path env.paths with
    | error e => simp [start_hyperion_server, hres] at hx
    | ok p =>
      cases hex : env.fsExists p with
      | false => simp [start_hyperion_server, hres, hex] at hx
      | true =>
        cases hsp : env.spawn p modeArgs <;>
          simp [start_hyperion_server, hres, hex, hsp] at hx <;>
          simp [hx, modeArgs]
  · intro e₁ e₂ hp hs hfs
    cases hres : get_hyper_binary_path e₁.paths with
    | error e =>
      constructor <;> simp [start_hyperion_server, hres, hp ▸ hres]
    | ok p =>
      have hres₂ : get_hyper_binary_path e₂.paths = .ok p := hp ▸ hres
      have hex : e₁.fsExists p = e₂.fsExists p := hfs p hres
      cases hex₂ : e₂.fsExists p with
      | false =>
        constructor <;>
          simp [start_hyperion_server, hres, hres₂, hex ▸ hex₂, hex₂]
      | true =>
        cases hsp : e₂.spawn p modeArgs <;>
          constructor <;>
          simp [start_hyperion_server, hres, hres₂, hex ▸ hex₂, hex₂,
            hs ▸ hsp, hsp]
  · intro env p q pid hres hex henv hq hsp
    constructor <;> simp [start_hyperion_server, hres, hex, henv, hq, hsp]

/-- Witness for claim C8, at the concrete start environment
binaryOnlyEnv, in which the binary exists but the config file does not. -/
theorem c8_invocation_args_witness :
    (start_hyperion_server binaryOnlyEnv).result = .ok 42 ∧
    ("Warning: .env.hyper not found at " ++ pathRepr ["repo", "bin", ".env.hyper"]) ∈
      (start_hyperion_server binaryOnlyEnv).logs :=
  c8_invocation_args.2.2 binaryOnlyEnv ["repo", "bin", "hyper"]
    ["repo", "bin", ".env.hyper"] 42 rfl rfl rfl rfl rfl

/-- Claim C9: get_server_url is the constant string naming the fixed UI
address, independent of any application state, and its type admits no
failure. -/
theorem c9_server_url_constant : get_server_url = "http://localhost:7095/ui" := rfl

/-- Claim C10: every typed wrapper puts on the wire a tool name that is
the string "coordinator_" prepended to its own operation name, so the
on-wire names differ from the host-facing command names. -/
theorem c10_tool_names (transport : HttpPost → HttpOutcome)
    (prompt h a r : String) (cs : Option String) (fm : Option (List String))
    (td : Option (List Json)) (an hid : Option String) (t s : String)
    (nt : Option String) (col txt : String) (md : Option Json)
    (qc qq : String) (lim : Option Int) :
    (create_human_task transport prompt).1.map requestToolName =
      [some (Json.str ("coordinator_" ++ "create_human_task"))] ∧
    (create_agent_task transport h a r cs fm td).1.map requestToolName =
      [some (Json.str ("coordinator_" ++ "create_agent_task"))] ∧
    (list_human_tasks transport).1.map requestToolName =
      [some (Json.str ("coordinator_" ++ "list_human_tasks"))] ∧
    (list_agent_tasks transport an hid).1.map requestToolName =
      [some (Json.str ("coordinator_" ++ "list_agent_tasks"))] ∧
    (update_task_status transport t s nt).1.map requestToolName =
      [some (Json.str ("coordinator_" ++ "update_task_status"))] ∧
    (upsert_knowledge transport col txt md).1.map requestToolName =
      [some (Json.str ("coordinator_" ++ "upsert_knowledge"))] ∧
    (query_knowledge transport qc qq lim).1.map requestToolName =
      [some (Json.str ("coordinator_" ++ "query_knowledge"))] ∧
    ("coordinator_" ++ "create_human_task" ≠ ("create_human_task" : String)) ∧
    ("coordinator_" ++ "list_agent_tasks" ≠ ("list_agent_tasks" : String)) ∧
    ("coordinator_" ++ "query_knowledge" ≠ ("query_knowledge" : String)) := by
  refine ⟨?_, ?_, ?_, ?_, ?_, ?_, ?_, by decide, by decide, by decide⟩ <;>
    simp [create_human_task, create_agent_task, list_human_tasks,
      list_agent_tasks, update_task_status, upsert_knowledge, query_knowledge,
      call_mcp_tool_requests, requestToolName, lookupKey]

end Hyperion
